import Mathlib

/-!
Shallow embedding of the takt time-tracking tool (src/takt.py).

Records carry a timestamp, a kind string ("in" / "out") and free-text notes.
The core is `Aggregator.calculate`: it pairs consecutive in/out events and
buckets signed durations by a period key of the current record's timestamp.

Python floats are modelled as rationals; `pandas.Timestamp` values are
modelled as a calendar date plus a rational second-of-day.  Exceptions
(`IndexError` from `records[0]`, `ValueError` from the period dispatch)
are modelled with `Except String`.
-/

namespace Takt

/-- A calendar date, proleptic Gregorian. -/
structure Date where
  year : ℕ
  month : ℕ
  day : ℕ
  deriving DecidableEq, Repr, Inhabited

/-- Model of `pandas.Timestamp`: a date plus the second-of-day. -/
structure Timestamp where
  date : Date
  secOfDay : ℚ
  deriving DecidableEq, Repr, Inhabited

/-- One row of the record file: columns `timestamp, kind, notes`
(`COLUMNS` in src/takt.py). -/
structure Record where
  timestamp : Timestamp
  kind : String
  notes : String
  deriving DecidableEq, Repr, Inhabited

/-- Gregorian leap-year rule. -/
def isLeap (y : ℕ) : Bool := (y % 4 == 0 && y % 100 != 0) || y % 400 == 0

/-- Number of days of month `m` (1-based) of year `y`. -/
def daysInMonth (y m : ℕ) : ℕ :=
  if m = 2 then (if isLeap y then 29 else 28)
  else if m = 4 ∨ m = 6 ∨ m = 9 ∨ m = 11 then 30
  else 31

/-- Day of year, 1-based: days of the full months before `d.month`, plus `d.day`. -/
def dayOfYear (d : Date) : ℕ :=
  (List.range (d.month - 1)).foldl (fun acc i => acc + daysInMonth d.year (i + 1)) 0 + d.day

/-- Days in years `1 .. y-1` of the proleptic Gregorian calendar. -/
def daysBeforeYear (y : ℕ) : ℕ :=
  365 * (y - 1) + (y - 1) / 4 - (y - 1) / 100 + (y - 1) / 400

/-- Zero-based day number of a date, with day 0 = January 1 of year 1. -/
def daysSinceYear1 (d : Date) : ℕ := daysBeforeYear d.year + dayOfYear d - 1

/-- Day of week with Sunday = 0, ..., Saturday = 6.
January 1 of year 1 (proleptic Gregorian) is a Monday. -/
def weekdayS0 (d : Date) : ℕ := (daysSinceYear1 d + 1) % 7

/-- Week of year as computed by C/Python `strftime("%U")`: all days of the
year preceding the first Sunday belong to week 0, and each Sunday starts a
new week. -/
def strftimeU (d : Date) : ℕ := (dayOfYear d + 6 - weekdayS0 d) / 7

/-- Absolute time of a timestamp in seconds (for `Timestamp` subtraction,
whose Python counterpart is `(t2 - t1).total_seconds()`). -/
def toSecs (t : Timestamp) : ℚ := (daysSinceYear1 t.date : ℚ) * 86400 + t.secOfDay

/-- Left-pad a string with `'0'` to width `w` (Python `str.zfill`; the two
behaviours only differ on signed strings shorter than `w`, which do not occur
in src/takt.py). -/
def strZfill (w : ℕ) (s : String) : String :=
  if s.length < w then String.mk (List.replicate (w - s.length) '0') ++ s else s

/-- Decimal representation of `n` zero-padded to width `w`
(Python zero-padding format spec for nonnegative numbers). -/
def padNat (w n : ℕ) : String := strZfill w (toString n)

/-- Python `date.isoformat()`: `YYYY-MM-DD`. -/
def Date.isoformat (d : Date) : String :=
  padNat 4 d.year ++ "-" ++ padNat 2 d.month ++ "-" ++ padNat 2 d.day

/-- Function `DailyRef.group` from src/takt.py: the ISO date of the timestamp. -/
def DailyRef.group (t : Timestamp) : String := t.date.isoformat

/-- Function `WeekRef.group` from src/takt.py: the year, then a dash and a W,
then the two-digit strftime %U week number of the timestamp. -/
def WeekRef.group (t : Timestamp) : String :=
  toString t.date.year ++ "-W" ++ padNat 2 (strftimeU t.date)

/-- Function `YearRef.group` from src/takt.py: the year of the timestamp. -/
def YearRef.group (t : Timestamp) : String := toString t.date.year

/-- Function `MonthRef.group` from src/takt.py: the year, then a dash and an M,
then the two-digit month of the timestamp. -/
def MonthRef.group (t : Timestamp) : String :=
  toString t.date.year ++ "-M" ++ padNat 2 t.date.month

/-- Constant `SECONDS_TO_HOURS = 1 / 3600` from src/takt.py. -/
def SECONDS_TO_HOURS : ℚ := 1 / 3600

/-- A row of `row_collection` inside `Aggregator.calculate`:
`[group_by, total_hours, [date], [note]]`. -/
structure PairRow where
  group : String
  hours : ℚ
  dates : List Date
  notes : List String
  deriving DecidableEq, Repr, Inhabited

/-- The scan loop of `Aggregator.calculate` (src/takt.py lines 233-256):
update `last_in_time` / `last_out_time` from the record's kind, and whenever
both are set emit a row for the current record and reset both. -/
def pairRows (f : Timestamp → String) :
    List Record → Option Timestamp → Option Timestamp → List PairRow
  | [], _, _ => []
  | r :: rs, lastIn, lastOut =>
    let li2 := if r.kind = "in" then some r.timestamp else lastIn
    let lo2 := if r.kind = "in" then lastOut else some r.timestamp
    if li2.isSome && lo2.isSome then
      { group := f r.timestamp
        hours := (toSecs lo2.get! - toSecs li2.get!) * SECONDS_TO_HOURS
        dates := [r.timestamp.date]
        notes := [r.notes] } :: pairRows f rs none none
    else
      pairRows f rs li2 lo2

/-- Distinct elements of a list, keeping the first occurrence of each. -/
def firstKeys (l : List String) : List String :=
  l.foldl (fun acc k => if k ∈ acc then acc else acc ++ [k]) []

/-- Python string `<`: lexicographic comparison of code points
(shorter strict prefixes compare smaller). -/
def listLtCh : List Char → List Char → Bool
  | [], [] => false
  | [], _ :: _ => true
  | _ :: _, [] => false
  | a :: as, b :: bs =>
    if a.toNat < b.toNat then true
    else if b.toNat < a.toNat then false
    else listLtCh as bs

/-- Python `<` on strings. -/
def pyLt (a b : String) : Bool := listLtCh a.data b.data

/-- Sort order used for the output of `Aggregator.calculate`: pandas
`groupby(...).sum()` sorts the group keys ascending and
`sort_index(ascending=False)` then flips the order, so keys are emitted in
descending string order.  `descRel a b` says `a` may come before `b`. -/
def descRel (a b : String) : Prop := pyLt a b = false

instance : DecidableRel descRel := fun _ _ => instDecidableEqBool _ _

/-- A row of the final summary: `group, hours, dates, notes, avg.hours`. -/
structure AggRow where
  group : String
  hours : ℚ
  dates : Finset Date
  notes : Finset String
  avgHours : ℚ
  deriving DecidableEq

/-- The aggregation tail of `Aggregator.calculate` (src/takt.py lines
258-269): group the collected rows by `group`, sum the hours, concatenate and
deduplicate the date and note lists, compute `avg.hours = hours / len(dates)`,
and emit the groups in descending key order. -/
def summarize (f : Timestamp → String) (recs : List Record) : List AggRow :=
  let rows := pairRows f recs none none
  let keys := List.insertionSort descRel (firstKeys (rows.map PairRow.group))
  keys.map (fun k =>
    let g := rows.filter (fun r => r.group = k)
    let hours := (g.map PairRow.hours).sum
    let dateSet := (g.map PairRow.dates).flatten.toFinset
    let noteSet := (g.map PairRow.notes).flatten.toFinset
    { group := k
      hours := hours
      dates := dateSet
      notes := noteSet
      avgHours := hours / (dateSet.card : ℚ) })

/-- The note printed (deferred) when the last `out` record was inferred. -/
def inferNote : String := "NOTE: Last out was inferred using `Timestamp.now()`."

/-- Method `Aggregator.infer_last_out` (src/takt.py lines 211-225): if the first
(most recent) record has kind `in`, prepend a synthetic `out` record stamped
`now` and defer a note; `records[0]` raises `IndexError` on an empty list. -/
def infer_last_out (records : List Record) (now : Timestamp) :
    Except String (List Record × List String) :=
  match records with
  | [] => Except.error "IndexError: list index out of range"
  | r :: _ =>
    if r.kind = "in" then
      Except.ok ({ timestamp := now, kind := "out", notes := "Inferred by takt." } :: records,
        [inferNote])
    else
      Except.ok (records, [])

/-- Method `Aggregator.calculate` for a fixed period-key function: preprocess with
`infer_last_out`, then scan and aggregate.  The second component is the list
of deferred notes. -/
def calculateWith (f : Timestamp → String) (records : List Record) (now : Timestamp) :
    Except String (List AggRow × List String) :=
  match infer_last_out records now with
  | Except.error e => Except.error e
  | Except.ok (recs, msgs) => Except.ok (summarize f recs, msgs)

/-- Period dispatch of `Aggregator.__init__`: unsupported periods raise
`ValueError`. -/
def Aggregator.timeAggOf (period : String) : Except String (Timestamp → String) :=
  if period = "wtd" then Except.ok WeekRef.group
  else if period = "ytd" then Except.ok YearRef.group
  else if period = "mtd" then Except.ok MonthRef.group
  else if period = "daily" then Except.ok DailyRef.group
  else Except.error ("Period " ++ period ++ " not supported.")

/-- Method call `Aggregator(period).calculate(records)` with `pd.Timestamp.now()`
passed explicitly. -/
def Aggregator.calculate (period : String) (records : List Record) (now : Timestamp) :
    Except String (List AggRow × List String) :=
  match Aggregator.timeAggOf period with
  | Except.error e => Except.error e
  | Except.ok f => calculateWith f records now

/-- The observable state of a `Takt` instance: the on-disk record file
(newest record first) and the list of deferred messages. -/
structure TaktState where
  file : List Record
  deferredMsgs : List String
  deriving DecidableEq

/-- Method `Takt.aggregate` (src/takt.py lines 436-442): read all rows, aggregate,
collect the aggregator's deferred notes.  The file itself is never written on
this path; an exception propagates and leaves the state unchanged. -/
def aggregate (s : TaktState) (period : String) (now : Timestamp) :
    Except String (List AggRow) × TaktState :=
  match Aggregator.calculate period s.file now with
  | Except.error e => (Except.error e, s)
  | Except.ok (rows, msgs) => (Except.ok rows, { s with deferredMsgs := s.deferredMsgs ++ msgs })

/-- The `check` command (src/takt.py lines 481-497): read the most recent
record, toggle the kind, and prepend a new record (`FileManager.insert`
inserts at position 0). -/
def check (file : List Record) (now : Timestamp) (notes : String) : List Record :=
  let kind :=
    match file.head? with
    | none => "in"
    | some r => if r.kind = "out" then "in" else "out"
  { timestamp := now, kind := kind, notes := notes } :: file

/-- Python `int()` applied to a rational: truncation toward zero. -/
def ratTrunc (q : ℚ) : ℤ := Int.tdiv q.num q.den

/-- Function `format_time` (src/takt.py lines 281-284):
`str(int(hours)).zfill(2) ++ ":" ++ str(int((hours - int(hours)) * 60)).zfill(2)`. -/
def format_time (hours : ℚ) : String :=
  let h := strZfill 2 (toString (ratTrunc hours))
  let m := strZfill 2 (toString (ratTrunc ((hours - (ratTrunc hours : ℚ)) * 60)))
  h ++ ":" ++ m

/-- Spec-worded definition for C3: the period keys in the order they are
first encountered during the scan of the records. -/
def specFirstEncounterKeys (f : Timestamp → String) (recs : List Record) : List String :=
  firstKeys ((pairRows f recs none none).map PairRow.group)

/-- Spec-worded definition for C6: the week-number convention described in
the spec ("week 0 begins Jan 1; the first Sunday starts week 1"), i.e. the
number of Sundays of the year that have occurred up to and including `d`. -/
def specWeekNumber (d : Date) : ℕ :=
  (List.range (dayOfYear d)).countP
    (fun i => decide ((weekdayS0 { year := d.year, month := 1, day := 1 } + i) % 7 = 0))

/-- Helper for concrete examples: the timestamp `y-m-d h:00`. -/
def mkTs (y m d h : ℕ) : Timestamp := { date := { year := y, month := m, day := d }, secOfDay := (h : ℚ) * 3600 }

/-! ### Concrete example data -/

/-- First concrete example of C1: `[out@08:00, in@07:00]` on 2022-01-02,
newest first. -/
def exC1 : List Record := [⟨mkTs 2022 1 2 8, "out", ""⟩, ⟨mkTs 2022 1 2 7, "in", ""⟩]

/-- A fixed "current time" for examples whose `now` is irrelevant. -/
def now0 : Timestamp := mkTs 2022 1 10 12

/-- Concrete state for the C4 witness: one `in` record, no deferred messages. -/
def exC4state : TaktState := { file := [⟨mkTs 2022 1 2 7, "in", ""⟩], deferredMsgs := [] }

/-- Concrete all-`out` run for the C5 witness. -/
def exC5 : List Record := [⟨mkTs 2022 1 1 8, "out", ""⟩]

/-- Concrete all-`in` run refuting C5 as stated. -/
def cexC5 : List Record := [⟨mkTs 2022 1 2 7, "in", ""⟩, ⟨mkTs 2022 1 1 7, "in", ""⟩]

/-- The "current time" used when aggregating `cexC5`. -/
def nowC5 : Timestamp := mkTs 2022 1 2 8

/-- A date is valid when its month and day lie in range and the year is
positive. -/
def ValidDate (d : Date) : Prop :=
  1 ≤ d.month ∧ d.month ≤ 12 ∧ 1 ≤ d.day ∧ d.day ≤ daysInMonth d.year d.month ∧ 1 ≤ d.year

instance (d : Date) : Decidable (ValidDate d) := by
  unfold ValidDate; infer_instance

/-- Input refuting C3 as stated: records given oldest first, so the first
encountered period key is the smallest one. -/
def cexC3 : List Record :=
  [⟨mkTs 2022 1 1 8, "out", ""⟩, ⟨mkTs 2022 1 1 7, "in", ""⟩,
   ⟨mkTs 2022 1 2 8, "out", ""⟩, ⟨mkTs 2022 1 2 7, "in", ""⟩]

/-- Concrete two-day weekly example for C7, newest first: one-hour pairs on
Tuesday 2022-01-04 and Wednesday 2022-01-05, both in week `2022-W01`. -/
def exC7 : List Record :=
  [⟨mkTs 2022 1 5 8, "out", ""⟩, ⟨mkTs 2022 1 5 7, "in", ""⟩,
   ⟨mkTs 2022 1 4 8, "out", ""⟩, ⟨mkTs 2022 1 4 7, "in", ""⟩]

/-- The pair row the scan emits for the Wednesday pair of `exC7`, used to
witness C7. -/
def exC7row1 : PairRow :=
  { group := "2022-W01"
    hours := (toSecs (mkTs 2022 1 5 8) - toSecs (mkTs 2022 1 5 7)) * SECONDS_TO_HOURS
    dates := [⟨2022, 1, 5⟩]
    notes := [""] }

/-- The pair row the scan emits for the Tuesday pair of `exC7`, used to
witness C7. -/
def exC7row2 : PairRow :=
  { group := "2022-W01"
    hours := (toSecs (mkTs 2022 1 4 8) - toSecs (mkTs 2022 1 4 7)) * SECONDS_TO_HOURS
    dates := [⟨2022, 1, 4⟩]
    notes := [""] }

/-- The aggregate rows of the C1 example, used to witness C10. -/
def rowsC10 : List AggRow := summarize DailyRef.group exC1

/-- The single aggregate row of the C1 example, used to witness C10. -/
def rowC10 : AggRow :=
  { group := "2022-01-02"
    hours := (toSecs (mkTs 2022 1 2 8) - toSecs (mkTs 2022 1 2 7)) * SECONDS_TO_HOURS + 0
    dates := ([(⟨2022, 1, 2⟩ : Date)]).toFinset
    notes := ([""]).toFinset
    avgHours := ((toSecs (mkTs 2022 1 2 8) - toSecs (mkTs 2022 1 2 7)) * SECONDS_TO_HOURS + 0) /
      (((1 : ℕ)) : ℚ) }


/-! ### Theorems -/

/-- C1: the pair trigger fires exactly when both `last_in` and `last_out`
are set after the update; it then emits the signed duration in hours,
bucketed by the period key of the current record's timestamp, together with
the current record's date, and resets both; on `[out@08:00, in@07:00]`
(same day, newest first) daily aggregation yields one bucket of 1.0 hours
with that single date. -/
theorem pair_trigger_and_example :
    (∀ (f : Timestamp → String) (r : Record) (rs : List Record)
      (li lo : Option Timestamp),
      pairRows f (r :: rs) li lo =
        (let li2 := if r.kind = "in" then some r.timestamp else li
         let lo2 := if r.kind = "in" then lo else some r.timestamp
         if h : li2.isSome ∧ lo2.isSome then
           { group := f r.timestamp
             hours := (toSecs (lo2.get h.2) - toSecs (li2.get h.1)) / 3600
             dates := [r.timestamp.date]
             notes := [r.notes] } :: pairRows f rs none none
         else pairRows f rs li2 lo2)) ∧
    Aggregator.calculate "daily" exC1 now0 =
      Except.ok ([{ group := "2022-01-02", hours := 1,
                    dates := {⟨2022, 1, 2⟩}, notes := {""}, avgHours := 1 }], []) := by
  constructor
  · intro f r rs li lo
    simp only [pairRows]
    by_cases hk : r.kind = "in"
    · cases lo with
      | none => simp [hk]
      | some b => simp [hk, Option.get!, SECONDS_TO_HOURS, div_eq_mul_inv, one_div]
    · cases li with
      | none => simp [hk]
      | some a => simp [hk, Option.get!, SECONDS_TO_HOURS, div_eq_mul_inv, one_div]
  · have h : Aggregator.calculate "daily" exC1 now0 =
      Except.ok ([{ group := "2022-01-02",
                    hours := (toSecs (mkTs 2022 1 2 8) - toSecs (mkTs 2022 1 2 7)) * SECONDS_TO_HOURS + 0,
                    dates := ([(⟨2022, 1, 2⟩ : Date)]).toFinset,
                    notes := ([""]).toFinset,
                    avgHours := ((toSecs (mkTs 2022 1 2 8) - toSecs (mkTs 2022 1 2 7)) * SECONDS_TO_HOURS + 0) /
                      ((([(⟨2022, 1, 2⟩ : Date)]).toFinset.card : ℕ) : ℚ) }], []) := rfl
    rw [h]
    norm_num [AggRow.mk.injEq, toSecs, mkTs, SECONDS_TO_HOURS]

/-- C2: on the empty record list, `Aggregator.calculate` raises `IndexError`
(from `records[0]` in `infer_last_out`) instead of returning an empty

aggregate output. -/
theorem calculate_empty_raises :
    ∀ (f : Timestamp → String) (now : Timestamp),
      calculateWith f [] now = Except.error "IndexError: list index out of range" ∧
      Aggregator.calculate "daily" [] now =
        Except.error "IndexError: list index out of range" :=
  fun _ _ => ⟨rfl, rfl⟩

/-- C9: `check` prepends a new record stamped `now` carrying the given notes,

whose kind is `in` exactly when the store is empty or the most recent record
has kind `out`, and `out` otherwise. -/
theorem check_toggles :
    ∀ (file : List Record) (now : Timestamp) (notes : String),
      (check file now notes).tail = file ∧
      ∃ r, (check file now notes).head? = some r ∧ r.timestamp = now ∧ r.notes = notes ∧
        (r.kind = "in" ↔ file = [] ∨ ∃ s t, file = s :: t ∧ s.kind = "out") ∧
        (r.kind = "out" ↔ ∃ s t, file = s :: t ∧ s.kind ≠ "out") := by
  intro file now notes
  cases file with
  | nil =>
    exact ⟨rfl, ⟨{ timestamp := now, kind := "in", notes := notes }, rfl, rfl, rfl,
      by simp, by simp⟩⟩
  | cons s t =>
    by_cases hs : s.kind = "out"
    · refine ⟨rfl, ⟨{ timestamp := now, kind := "in", notes := notes }, ?_, rfl, rfl, ?_, ?_⟩⟩
      · simp [check, hs]
      · simp [hs]
      · simp [hs]
    · refine ⟨rfl, ⟨{ timestamp := now, kind := "out", notes := notes }, ?_, rfl, rfl, ?_, ?_⟩⟩
      · simp [check, hs]
      · simp [hs]
      · simp [hs]

/-- C4: if the most recent record has kind `in`, aggregation prepends a

synthetic closing `out` record stamped `now`, defers exactly one
informational note, succeeds, and leaves the record file unchanged. -/
theorem aggregate_infers_out :
    ∀ (s : TaktState) (period : String) (now : Timestamp) (r : Record)
      (rest : List Record) (f : Timestamp → String),
      s.file = r :: rest → r.kind = "in" →
      Aggregator.timeAggOf period = Except.ok f →
      infer_last_out s.file now =
        Except.ok ({ timestamp := now, kind := "out", notes := "Inferred by takt." } :: s.file,
          [inferNote]) ∧
      (aggregate s period now).2.file = s.file ∧
      (aggregate s period now).2.deferredMsgs = s.deferredMsgs ++ [inferNote] ∧
      (aggregate s period now).1 =
        Except.ok (summarize f
          ({ timestamp := now, kind := "out", notes := "Inferred by takt." } :: s.file)) := by
  intro s period now r rest f hf hk hp
  have hinf : infer_last_out s.file now =
      Except.ok ({ timestamp := now, kind := "out", notes := "Inferred by takt." } :: s.file,
        [inferNote]) := by
    rw [hf]; simp [infer_last_out, hk]
  have hcalc : Aggregator.calculate period s.file now =
      Except.ok (summarize f
        ({ timestamp := now, kind := "out", notes := "Inferred by takt." } :: s.file),
        [inferNote]) := by
    simp [Aggregator.calculate, hp, calculateWith, hinf]
  exact ⟨hinf, by simp [aggregate, hcalc], by simp [aggregate, hcalc], by simp [aggregate, hcalc]⟩


/-- Witness for C4 at a concrete one-record state. -/
theorem aggregate_infers_out_witness :
    infer_last_out exC4state.file now0 =
      Except.ok ({ timestamp := now0, kind := "out", notes := "Inferred by takt." } :: exC4state.file,
        [inferNote]) ∧
    (aggregate exC4state "daily" now0).2.file = exC4state.file ∧
    (aggregate exC4state "daily" now0).2.deferredMsgs = exC4state.deferredMsgs ++ [inferNote] ∧
    (aggregate exC4state "daily" now0).1 =
      Except.ok (summarize DailyRef.group
        ({ timestamp := now0, kind := "out", notes := "Inferred by takt." } :: exC4state.file)) :=
  aggregate_infers_out exC4state "daily" now0 ⟨mkTs 2022 1 2 7, "in", ""⟩ [] DailyRef.group
    rfl rfl rfl

/-- Helper: a list whose records never have kind `in` never sets

`last_in_time`, so the scan emits nothing. -/
theorem pairRows_no_in (f : Timestamp → String) :
    ∀ (l : List Record) (lo : Option Timestamp),
      (∀ r ∈ l, r.kind ≠ "in") → pairRows f l none lo = [] := by
  intro l
  induction l with
  | nil => intro lo _; rfl
  | cons r rs ih =>
    intro lo h
    have hr : r.kind ≠ "in" := h r (List.mem_cons_self r rs)
    simp only [pairRows, if_neg hr, Option.isSome_none, Bool.false_and, Bool.false_eq_true,
      reduceIte]
    exact ih _ (fun x hx => h x (List.mem_cons_of_mem r hx))

/-- C5 (amended): a non-empty run of records all of kind `out` never triggers

a pair; aggregation returns the empty output and raises nothing. -/
theorem allOut_contributes_nothing :
    ∀ (f : Timestamp → String) (records : List Record) (now : Timestamp),
      records ≠ [] → (∀ r ∈ records, r.kind = "out") →
      calculateWith f records now = Except.ok ([], []) := by
  intro f records now hne hall
  obtain ⟨r, rest, rfl⟩ := List.exists_cons_of_ne_nil hne
  have hr : r.kind ≠ "in" := by
    rw [hall r (List.mem_cons_self r rest)]; decide
  have hpr : pairRows f (r :: rest) none none = [] :=
    pairRows_no_in f (r :: rest) none
      (fun x hx => by rw [hall x hx]; decide)
  simp [calculateWith, infer_last_out, hr, summarize, hpr, firstKeys]


/-- Witness for the amended C5 at a concrete one-record run. -/
theorem allOut_contributes_nothing_witness :
    exC5 ≠ [] ∧ (∀ r ∈ exC5, r.kind = "out") ∧
      calculateWith DailyRef.group exC5 now0 = Except.ok ([], []) :=
  ⟨List.cons_ne_nil _ _, fun r hr => by rw [List.eq_of_mem_singleton hr],
    allOut_contributes_nothing DailyRef.group exC5 now0 (List.cons_ne_nil _ _)
      (fun r hr => by rw [List.eq_of_mem_singleton hr])⟩


/-- Counterexample to C5 as stated: on a run of two `in` records (same kind,
no alternation) the aggregator synthesizes a closing `out` and does trigger a
pair, producing a non-empty bucket. -/
theorem sameKind_run_triggers_pair :
    (cexC5.all (fun r => r.kind == "in") = true) ∧
    Aggregator.calculate "daily" cexC5 nowC5 =
      Except.ok ([{ group := "2022-01-02", hours := 1,
                    dates := {⟨2022, 1, 2⟩}, notes := {""}, avgHours := 1 }], [inferNote]) ∧
    [({ group := "2022-01-02", hours := 1, dates := {⟨2022, 1, 2⟩}, notes := {""},
        avgHours := 1 } : AggRow)] ≠ [] := by
  refine ⟨rfl, ?_, by simp⟩
  have h : Aggregator.calculate "daily" cexC5 nowC5 =
    Except.ok ([{ group := "2022-01-02",
                  hours := (toSecs nowC5 - toSecs (mkTs 2022 1 2 7)) * SECONDS_TO_HOURS + 0,
                  dates := ([(⟨2022, 1, 2⟩ : Date)]).toFinset,
                  notes := ([""]).toFinset,
                  avgHours := ((toSecs nowC5 - toSecs (mkTs 2022 1 2 7)) * SECONDS_TO_HOURS + 0) /
                    (((1 : ℕ)) : ℚ) }], [inferNote]) := rfl
  rw [h]
  norm_num [AggRow.mk.injEq, toSecs, mkTs, nowC5, SECONDS_TO_HOURS]


/-- Helper: Python `int()` truncation agrees with the floor on nonnegative
rationals. -/
theorem ratTrunc_eq_floor (q : ℚ) (h : 0 ≤ q) : ratTrunc q = ⌊q⌋ := by
  rw [Rat.floor_def]
  unfold ratTrunc
  have hnum : 0 ≤ q.num := Rat.num_nonneg.mpr h
  obtain ⟨m, hm⟩ := Int.eq_ofNat_of_zero_le hnum
  rw [hm]
  rfl

/-- C8: `format_time` renders a nonnegative rational number of hours as
`HH:MM` from the integer hour part and the fractional part times 60, both

zero padded to two digits; in particular `format_time 1.5 = "01:30"` and
`format_time 0 = "00:00"`. -/
theorem format_time_spec :
    format_time (3 / 2) = "01:30" ∧ format_time 0 = "00:00" ∧
    ∀ q : ℚ, 0 ≤ q →
      format_time q =
        strZfill 2 (toString ⌊q⌋) ++ ":" ++ strZfill 2 (toString ⌊(q - ⌊q⌋) * 60⌋) := by
  have key : ∀ q : ℚ, 0 ≤ q →
      format_time q =
        strZfill 2 (toString ⌊q⌋) ++ ":" ++ strZfill 2 (toString ⌊(q - ⌊q⌋) * 60⌋) := by
    intro q hq
    have h1 : ratTrunc q = ⌊q⌋ := ratTrunc_eq_floor q hq
    have h2 : (0 : ℚ) ≤ (q - ⌊q⌋) * 60 := by
      have := Int.floor_le q
      have h60 : (0 : ℚ) ≤ 60 := by norm_num
      exact mul_nonneg (by linarith) h60
    unfold format_time
    rw [h1, ratTrunc_eq_floor _ h2]
  refine ⟨?_, ?_, key⟩
  · rw [key (3 / 2) (by norm_num)]
    have hf : ⌊(3 / 2 : ℚ)⌋ = 1 := by norm_num
    have hm : ⌊((3 / 2 : ℚ) - ((1 : ℤ) : ℚ)) * 60⌋ = 30 := by norm_num
    rw [hf, hm]
    rfl
  · rw [key 0 le_rfl]
    have hf : ⌊(0 : ℚ)⌋ = 0 := by norm_num
    have hm : ⌊((0 : ℚ) - ((0 : ℤ) : ℚ)) * 60⌋ = 0 := by norm_num
    rw [hf, hm]
    rfl


/-- Witness for the universally quantified part of C8 at `q = 5/2`. -/
theorem format_time_spec_witness :
    (0 : ℚ) ≤ 5 / 2 ∧
    format_time (5 / 2) =
      strZfill 2 (toString ⌊(5 / 2 : ℚ)⌋) ++ ":" ++
        strZfill 2 (toString ⌊((5 / 2 : ℚ) - ⌊(5 / 2 : ℚ)⌋) * 60⌋) :=
  ⟨by norm_num, format_time_spec.2.2 (5 / 2) (by norm_num)⟩



/-- Helper: counting the Sunday indicator over `List.range (m+1)` adds the
indicator of day `m`. -/
theorem countP_range_succ_mod (a m : ℕ) :
    (List.range (m + 1)).countP (fun i => decide (((a + 1) % 7 + i) % 7 = 0)) =
      (List.range m).countP (fun i => decide (((a + 1) % 7 + i) % 7 = 0)) +
        (if ((a + 1) % 7 + m) % 7 = 0 then 1 else 0) := by
  rw [List.range_succ, List.countP_append]
  by_cases hp : ((a + 1) % 7 + m) % 7 = 0 <;> (simp [List.countP_cons, hp]; try omega)

/-- Helper: the `%U` formula equals the count of Sundays seen so far.  Here
`a` is the number of days before the year's January 1, so `(a + 1) % 7` is

the weekday of January 1 and `(a + n) % 7` the weekday of the `n`-th day of
the year (Sunday = 0). -/
theorem weekU_eq_count (a : ℕ) :
    ∀ n : ℕ, 1 ≤ n →
      (n + 6 - (a + n) % 7) / 7 =
        (List.range n).countP (fun i => decide (((a + 1) % 7 + i) % 7 = 0)) := by
  intro n
  induction n with
  | zero => omega
  | succ m ih =>
    intro _
    rw [countP_range_succ_mod a m]
    by_cases hm : 1 ≤ m
    · rw [← ih hm]
      by_cases hp : ((a + 1) % 7 + m) % 7 = 0
      · rw [if_pos hp]; omega
      · rw [if_neg hp]; omega
    · have hm0 : m = 0 := by omega
      subst hm0
      simp only [List.range_zero, List.countP_nil, Nat.zero_add]
      by_cases hp : ((a + 1) % 7 + 0) % 7 = 0
      · rw [if_pos hp]; omega
      · rw [if_neg hp]; omega

/-- Helper: on any date with a positive day number, the `strftime("%U")`

formula realizes the convention of the spec: it counts the Sundays of the
year up to and including the date. -/
theorem strftimeU_eq_specWeekNumber (d : Date) (hd : 1 ≤ d.day) :
    strftimeU d = specWeekNumber d := by
  have hdoy : 1 ≤ dayOfYear d := by
    unfold dayOfYear; omega
  have h1 : dayOfYear { year := d.year, month := 1, day := 1 } = 1 := rfl
  unfold strftimeU specWeekNumber weekdayS0 daysSinceYear1
  rw [h1]
  have e2 : daysBeforeYear d.year + 1 - 1 + 1 = daysBeforeYear d.year + 1 := by omega
  have e1 : daysBeforeYear d.year + dayOfYear d - 1 + 1 =
      daysBeforeYear d.year + dayOfYear d := by omega
  rw [e2, e1]
  exact weekU_eq_count (daysBeforeYear d.year) (dayOfYear d) hdoy

/-- C6: the four period-key functions return the ISO date, the
`{year}-W{week:02d}` string for the week convention in which week 0 begins

January 1 and the first Sunday starts week 1, the `{year}-M{month:02d}`
string, and the `{year}` string. -/
theorem periodKey_conventions :
    ∀ t : Timestamp, ValidDate t.date →
      DailyRef.group t = t.date.isoformat ∧
      WeekRef.group t = toString t.date.year ++ "-W" ++ padNat 2 (specWeekNumber t.date) ∧
      MonthRef.group t = toString t.date.year ++ "-M" ++ padNat 2 t.date.month ∧
      YearRef.group t = toString t.date.year := by
  intro t hv
  refine ⟨rfl, ?_, rfl, rfl⟩
  unfold WeekRef.group
  rw [strftimeU_eq_specWeekNumber t.date hv.2.2.1]


/-- Witness for C6 at the concrete date 2022-01-04. -/
theorem periodKey_conventions_witness :
    ValidDate (mkTs 2022 1 4 7).date ∧
    (DailyRef.group (mkTs 2022 1 4 7) = (mkTs 2022 1 4 7).date.isoformat ∧
      WeekRef.group (mkTs 2022 1 4 7) =
        toString (mkTs 2022 1 4 7).date.year ++ "-W" ++
          padNat 2 (specWeekNumber (mkTs 2022 1 4 7).date) ∧
      MonthRef.group (mkTs 2022 1 4 7) =
        toString (mkTs 2022 1 4 7).date.year ++ "-M" ++
          padNat 2 (mkTs 2022 1 4 7).date.month ∧
      YearRef.group (mkTs 2022 1 4 7) = toString (mkTs 2022 1 4 7).date.year) :=
  ⟨by decide, periodKey_conventions (mkTs 2022 1 4 7) (by decide)⟩


/-- Helper: the code-point order is asymmetric. -/
theorem listLtCh_asymm : ∀ as bs : List Char,
    listLtCh as bs = true → listLtCh bs as = false := by
  intro as
  induction as with
  | nil =>
    intro bs h
    cases bs with
    | nil => simp [listLtCh] at h
    | cons b bs2 => simp [listLtCh]
  | cons a as2 ih =>
    intro bs h
    cases bs with
    | nil => simp [listLtCh] at h
    | cons b bs2 =>
      by_cases h1 : a.toNat < b.toNat
      · have h2 : ¬ b.toNat < a.toNat := by omega
        simp [listLtCh, h1, h2]
      · by_cases h2 : b.toNat < a.toNat
        · simp [listLtCh, h1, h2] at h
        · simp only [listLtCh, if_neg h1, if_neg h2] at h ⊢
          exact ih bs2 h


/-- Helper: two lists neither of which precedes the other are equal. -/
theorem listLtCh_conn : ∀ as bs : List Char,
    listLtCh as bs = false → listLtCh bs as = false → as = bs := by
  intro as
  induction as with
  | nil =>
    intro bs h1 _
    cases bs with
    | nil => rfl
    | cons b bs2 => simp [listLtCh] at h1
  | cons a as2 ih =>
    intro bs h1 h2
    cases bs with
    | nil => simp [listLtCh] at h2
    | cons b bs2 =>
      by_cases ha : a.toNat < b.toNat
      · simp [listLtCh, ha] at h1
      · by_cases hb : b.toNat < a.toNat
        · simp [listLtCh, hb] at h2
        · have hab : a = b := Char.ext (UInt32.ext (show a.toNat = b.toNat by omega))
          have h1' : listLtCh as2 bs2 = false := by
            simpa [listLtCh, ha, hb] using h1
          have h2' : listLtCh bs2 as2 = false := by
            simpa [listLtCh, ha, hb] using h2
          rw [hab, ih bs2 h1' h2']


/-- Helper: the code-point order is transitive. -/
theorem listLtCh_trans : ∀ as bs cs : List Char,
    listLtCh as bs = true → listLtCh bs cs = true → listLtCh as cs = true := by
  intro as
  induction as with
  | nil =>
    intro bs cs h1 h2
    cases bs with
    | nil => simp [listLtCh] at h1
    | cons b bs2 =>
      cases cs with
      | nil => simp [listLtCh] at h2
      | cons c cs2 => simp [listLtCh]
  | cons a as2 ih =>
    intro bs cs h1 h2
    cases bs with
    | nil => simp [listLtCh] at h1
    | cons b bs2 =>
      cases cs with
      | nil => simp [listLtCh] at h2
      | cons c cs2 =>
        by_cases hba : b.toNat < a.toNat
        · simp [listLtCh, hba, show ¬ a.toNat < b.toNat by omega] at h1
        · by_cases hcb : c.toNat < b.toNat
          · simp [listLtCh, hcb, show ¬ b.toNat < c.toNat by omega] at h2
          · by_cases hab : a.toNat < b.toNat
            · by_cases hbc : b.toNat < c.toNat
              · simp [listLtCh, show a.toNat < c.toNat by omega]
              · have hbceq : b.toNat = c.toNat := by omega
                simp [listLtCh, show a.toNat < c.toNat by omega]
            · by_cases hbc : b.toNat < c.toNat
              · simp [listLtCh, show a.toNat < c.toNat by omega]
              · have h1' : listLtCh as2 bs2 = true := by
                  simpa [listLtCh, hab, hba] using h1
                have h2' : listLtCh bs2 cs2 = true := by
                  simpa [listLtCh, hbc, hcb] using h2
                simp only [listLtCh, if_neg (show ¬ a.toNat < c.toNat by omega),
                  if_neg (show ¬ c.toNat < a.toNat by omega)]
                exact ih bs2 cs2 h1' h2'


instance : IsTotal String descRel := ⟨by
  intro a b
  unfold descRel pyLt
  cases h : listLtCh a.data b.data with
  | false => exact Or.inl rfl
  | true => exact Or.inr (listLtCh_asymm _ _ h)⟩


instance : IsTrans String descRel := ⟨by
  intro a b c hab hbc
  unfold descRel pyLt at hab hbc ⊢
  cases h : listLtCh a.data c.data with
  | false => rfl
  | true =>
    exfalso
    by_cases hcb : listLtCh c.data b.data = true
    · have : listLtCh a.data b.data = true := listLtCh_trans _ _ _ h hcb
      rw [hab] at this
      cases this
    · have hcb2 : listLtCh c.data b.data = false := by
        cases hx : listLtCh c.data b.data with
        | false => rfl
        | true => exact absurd hx hcb
      have hbceq : b.data = c.data := listLtCh_conn _ _ hbc hcb2
      rw [← hbceq] at h
      rw [hab] at h
      cases h⟩


/-- Helper: the keys of the summary are the sorted first-encounter keys. -/
theorem summarize_map_group (f : Timestamp → String) (recs : List Record) :
    (summarize f recs).map AggRow.group =
      List.insertionSort descRel
        (firstKeys ((pairRows f recs none none).map PairRow.group)) := by
  simp only [summarize, List.map_map]
  exact List.map_id' _

/-- C3 (amended): the aggregator's output rows appear sorted by period key in

descending string order, and those keys are, up to reordering, exactly the
period keys encountered during the scan. -/
theorem output_sorted_descending :
    ∀ (f : Timestamp → String) (recs : List Record),
      List.Sorted descRel ((summarize f recs).map AggRow.group) ∧
      List.Perm ((summarize f recs).map AggRow.group) (specFirstEncounterKeys f recs) := by
  intro f recs
  rw [summarize_map_group]
  exact ⟨List.sorted_insertionSort descRel _, List.perm_insertionSort descRel _⟩


/-- Counterexample to C3 as stated: on `cexC3` the output keys come in
descending order `2022-01-02, 2022-01-01`, not in the first-encounter order
`2022-01-01, 2022-01-02`. -/
theorem output_not_first_encounter_order :
    (summarize DailyRef.group cexC3).map AggRow.group = ["2022-01-02", "2022-01-01"] ∧
    specFirstEncounterKeys DailyRef.group cexC3 = ["2022-01-01", "2022-01-02"] ∧
    (summarize DailyRef.group cexC3).map AggRow.group ≠
      specFirstEncounterKeys DailyRef.group cexC3 := by
  refine ⟨by decide, by decide, by decide⟩


/-- C7: for every input whose scan under weekly grouping emits exactly two
one-hour pair rows, on two different days, with the same weekly key, weekly
aggregation produces a single bucket carrying that key, with 2.0 total
hours, a distinct-day set of size 2, and average 1.0 hours (the average
being total hours divided by the distinct-day count). -/
theorem weekly_two_days_merge :
    ∀ (records : List Record) (now : Timestamp) (recs : List Record)
      (msgs : List String) (p1 p2 : PairRow) (d1 d2 : Date),
      infer_last_out records now = Except.ok (recs, msgs) →
      pairRows WeekRef.group recs none none = [p1, p2] →
      p1.hours = 1 → p2.hours = 1 →
      p1.group = p2.group →
      p1.dates = [d1] → p2.dates = [d2] → d1 ≠ d2 →
      Aggregator.calculate "wtd" records now =
          Except.ok (summarize WeekRef.group recs, msgs) ∧
        (summarize WeekRef.group recs).map AggRow.group = [p1.group] ∧
        (summarize WeekRef.group recs).map AggRow.hours = [2] ∧
        (summarize WeekRef.group recs).map (fun r => r.dates.card) = [2] ∧
        (summarize WeekRef.group recs).map AggRow.avgHours = [1] := by
  intro records now recs msgs p1 p2 d1 d2 hinf hrows h1 h2 hg hd1 hd2 hne
  have hp : Aggregator.timeAggOf "wtd" = Except.ok WeekRef.group := rfl
  have hg2 : p2.group = p1.group := hg.symm
  have hfk : firstKeys [p1.group, p1.group] = [p1.group] := by simp [firstKeys]
  have hsort : List.insertionSort descRel [p1.group] = [p1.group] := by
    simp [List.insertionSort, List.orderedInsert]
  have hfilter : ([p1, p2] : List PairRow).filter (fun r => r.group = p1.group) = [p1, p2] := by
    simp [List.filter_cons, hg2]
  have hsumm : summarize WeekRef.group recs =
      [{ group := p1.group
         hours := ([p1.hours, p2.hours] : List ℚ).sum
         dates := (([p1.dates, p2.dates] : List (List Date)).flatten).toFinset
         notes := (([p1.notes, p2.notes] : List (List String)).flatten).toFinset
         avgHours := ([p1.hours, p2.hours] : List ℚ).sum /
           ((([p1.dates, p2.dates] : List (List Date)).flatten).toFinset.card : ℚ) }] := by
    simp only [summarize]
    rw [hrows]
    simp only [List.map_cons, List.map_nil]
    rw [hg2, hfk, hsort]
    simp only [List.map_cons, List.map_nil]
    rw [hfilter]
    simp only [List.map_cons, List.map_nil]
  have hhours : ([p1.hours, p2.hours] : List ℚ).sum = 2 := by
    simp only [List.sum_cons, List.sum_nil]
    rw [h1, h2]; norm_num
  have hdflat : (([p1.dates, p2.dates] : List (List Date)).flatten) = [d1, d2] := by
    rw [hd1, hd2]; simp
  have hcard : (([p1.dates, p2.dates] : List (List Date)).flatten).toFinset.card = 2 := by
    rw [hdflat, List.toFinset_card_of_nodup (by simp [hne])]
    rfl
  refine ⟨by simp [Aggregator.calculate, hp, calculateWith, hinf], ?_, ?_, ?_, ?_⟩
  · rw [hsumm]
    rfl
  · rw [hsumm]
    show [([p1.hours, p2.hours] : List ℚ).sum] = [2]
    rw [hhours]
  · rw [hsumm]
    show [(([p1.dates, p2.dates] : List (List Date)).flatten).toFinset.card] = [2]
    rw [hcard]
  · rw [hsumm]
    show [([p1.hours, p2.hours] : List ℚ).sum /
      ((([p1.dates, p2.dates] : List (List Date)).flatten).toFinset.card : ℚ)] = [1]
    rw [hhours, hcard]
    norm_num

/-- Witness for C7: the concrete newest-first input `exC7` (one-hour pairs on
Wednesday 2022-01-05 and Tuesday 2022-01-04, both in week `2022-W01`)
satisfies every hypothesis, and weekly aggregation merges it into the single
bucket `2022-W01` with 2.0 hours, 2 distinct days, and average 1.0. -/
theorem weekly_two_days_merge_witness :
    (infer_last_out exC7 now0 = Except.ok (exC7, []) ∧
      pairRows WeekRef.group exC7 none none = [exC7row1, exC7row2] ∧
      exC7row1.hours = 1 ∧ exC7row2.hours = 1 ∧
      exC7row1.group = exC7row2.group ∧
      exC7row1.dates = [⟨2022, 1, 5⟩] ∧ exC7row2.dates = [⟨2022, 1, 4⟩] ∧
      (⟨2022, 1, 5⟩ : Date) ≠ ⟨2022, 1, 4⟩) ∧
    (Aggregator.calculate "wtd" exC7 now0 =
        Except.ok (summarize WeekRef.group exC7, []) ∧
      (summarize WeekRef.group exC7).map AggRow.group = [exC7row1.group] ∧
      (summarize WeekRef.group exC7).map AggRow.hours = [2] ∧
      (summarize WeekRef.group exC7).map (fun r => r.dates.card) = [2] ∧
      (summarize WeekRef.group exC7).map AggRow.avgHours = [1]) :=
  ⟨⟨rfl, rfl, by norm_num [exC7row1, toSecs, mkTs, SECONDS_TO_HOURS],
    by norm_num [exC7row2, toSecs, mkTs, SECONDS_TO_HOURS], rfl, rfl, rfl, by decide⟩,
    weekly_two_days_merge exC7 now0 exC7 [] exC7row1 exC7row2 ⟨2022, 1, 5⟩ ⟨2022, 1, 4⟩
      rfl rfl (by norm_num [exC7row1, toSecs, mkTs, SECONDS_TO_HOURS])
      (by norm_num [exC7row2, toSecs, mkTs, SECONDS_TO_HOURS]) rfl rfl rfl (by decide)⟩

/-- Helper: membership in `firstKeys`. -/
theorem mem_firstKeys : ∀ (l : List String) (k : String), k ∈ firstKeys l ↔ k ∈ l := by
  have aux : ∀ (l acc : List String) (k : String),
      k ∈ l.foldl (fun acc2 k2 => if k2 ∈ acc2 then acc2 else acc2 ++ [k2]) acc ↔
        k ∈ acc ∨ k ∈ l := by
    intro l
    induction l with
    | nil => intro acc k; simp
    | cons a l2 ih =>
      intro acc k
      rw [List.foldl_cons, ih]
      by_cases ha : a ∈ acc
      · simp only [if_pos ha, List.mem_cons]
        constructor
        · intro h; tauto
        · rintro (h | rfl | h) <;> tauto
      · simp only [if_neg ha, List.mem_append, List.mem_singleton, List.mem_cons]
        tauto
  intro l k
  unfold firstKeys
  rw [aux]
  simp


/-- Helper: every row emitted by the scan carries exactly one date. -/
theorem pairRows_dates_singleton (f : Timestamp → String) :
    ∀ (l : List Record) (li lo : Option Timestamp) (p : PairRow),
      p ∈ pairRows f l li lo → ∃ d, p.dates = [d] := by
  intro l
  induction l with
  | nil => intro li lo p hp; simp [pairRows] at hp
  | cons r rs ih =>
    intro li lo p hp
    by_cases hk : r.kind = "in"
    · cases lo with
      | none =>
        simp [pairRows, hk] at hp
        exact ih _ _ p hp
      | some b =>
        simp [pairRows, hk] at hp
        rcases hp with h | h
        · exact ⟨r.timestamp.date, by rw [h]⟩
        · exact ih _ _ p h
    · cases li with
      | none =>
        simp [pairRows, hk] at hp
        exact ih _ _ p hp
      | some a =>
        simp [pairRows, hk] at hp
        rcases hp with h | h
        · exact ⟨r.timestamp.date, by rw [h]⟩
        · exact ih _ _ p h

/-- C10: every aggregate row has a non-empty distinct-day set, hence the

average-hours division is by a non-zero count and is exactly
`hours / |dates|`. -/
theorem avg_denominator_nonzero :
    ∀ (f : Timestamp → String) (records : List Record) (now : Timestamp)
      (rows : List AggRow) (msgs : List String),
      calculateWith f records now = Except.ok (rows, msgs) →
      ∀ row ∈ rows, row.dates.card ≠ 0 ∧ row.avgHours = row.hours / (row.dates.card : ℚ) := by
  intro f records now rows msgs hc row hrow
  unfold calculateWith at hc
  rcases hinf : infer_last_out records now with e | ⟨recs, msgs2⟩
  · rw [hinf] at hc; cases hc
  · rw [hinf] at hc
    simp only [Except.ok.injEq, Prod.mk.injEq] at hc
    obtain ⟨hrows, -⟩ := hc
    subst hrows
    simp only [summarize, List.mem_map] at hrow
    obtain ⟨k, hk, hbuild⟩ := hrow
    subst hbuild
    refine ⟨?_, rfl⟩
    have hk2 : k ∈ firstKeys ((pairRows f recs none none).map PairRow.group) :=
      (List.perm_insertionSort descRel _).mem_iff.mp hk
    have hk3 : k ∈ (pairRows f recs none none).map PairRow.group :=
      (mem_firstKeys _ _).mp hk2
    obtain ⟨p, hp, hpk⟩ := List.mem_map.mp hk3
    have hpf : p ∈ (pairRows f recs none none).filter (fun r => r.group = k) :=
      List.mem_filter.mpr ⟨hp, by simp [hpk]⟩
    obtain ⟨d, hd⟩ := pairRows_dates_singleton f recs none none p hp
    have hdmem : d ∈ (((pairRows f recs none none).filter
        (fun r => r.group = k)).map PairRow.dates).flatten :=
      List.mem_flatten.mpr ⟨p.dates, List.mem_map_of_mem _ hpf,
        by rw [hd]; exact List.mem_singleton_self d⟩
    exact Finset.card_ne_zero_of_mem (List.mem_toFinset.mpr hdmem)

/-- Witness for C10 on the concrete aggregate row of the C1 example. -/
theorem avg_denominator_nonzero_witness :
    rowC10.dates.card ≠ 0 ∧ rowC10.avgHours = rowC10.hours / (rowC10.dates.card : ℚ) :=
  avg_denominator_nonzero DailyRef.group exC1 now0 rowsC10 [] rfl rowC10
    (List.mem_singleton.mpr rfl)

end Takt
